import Mathlib

/-!
# Verification of the Pratt top-down operator-precedence parser

Shallow embedding of `src/pratt-rd-parser-py.py`: the symbol registry built by
`symbol` / `infix` / `infix_r` / `prefix` and the method attachments, the lazy
token adapter `tokenize`, and the precedence-climbing engine `expression`.

The Python program threads two pieces of mutable global state through the
parse: the current token `token` and the generator `next`.  Here that state is
the structure `PSt` (current symbol instance + remaining raw lexical tokens),
passed and returned explicitly.  The external lexer `tokenize_python` is out of
scope (spec section 2); its output, the stream of `(kind, text)` pairs with a
trailing `("(end)", "(end)")`, is the input of the embedding (`pyTokens`).

Python's dynamically-created symbol classes carrying `lbp` / `nud` / `led` are
defunctionalized: each registered behavior closure becomes one constructor of
`NudB` / `LedB`, interpreted by the engine exactly as the corresponding Python
function body.  General recursion (the climbing loop, the element loops of the
tuple/list/dict/call/lambda forms) is paid for with explicit fuel; exhausting
the token stream models the generator's StopIteration, and the theorem for the
termination claim shows fuel linear in the stream length is never exhausted.
-/

set_option maxRecDepth 100000

namespace Pratt

/-- A raw lexical token as produced by `tokenize_python`: the mapped kind tag
(one of `"(literal)"`, `"(name)"`, `"(operator)"`, `"(end)"`) together with the
token text. -/
structure Raw where
  id : String
  value : String
deriving DecidableEq

/-- Prefix (`nud`) behaviors installed by the grammar registration code, one
constructor per distinct Python closure. -/
inductive NudB where
  /-- `symbol("(literal)").nud = lambda self: self`, same for `"(name)"`. -/
  | selfNud : NudB
  /-- `prefix(id, bp)`: `self.first = expression(bp); self.second = None`. -/
  | unary : Nat → NudB
  /-- the group nud (line 154): `expr = expression(); advance(")"); return expr`
      (later overwritten on `"("` by `tupleNud`). -/
  | group : NudB
  /-- the lambda nud: optional argument list, `advance(":")`, body. -/
  | lambdaNud : NudB
  /-- `constant(id)`: `self.id = "(literal)"; self.value = id; return self`. -/
  | constLit : String → NudB
  /-- the tuple nud (line 273), the final prefix behavior of `"("`. -/
  | tupleNud : NudB
  /-- the list nud (line 295) on `"["`. -/
  | listNud : NudB
  /-- the dict nud (line 312) on the open-brace symbol. -/
  | dictNud : NudB
deriving DecidableEq

/-- Infix (`led`) behaviors installed by the grammar registration code. -/
inductive LedB where
  /-- `infix(id, bp)`: left-associative, right operand at `expression(bp)`. -/
  | binL : Nat → LedB
  /-- `infix_r(id, bp)`: right-associative, right operand at `expression(bp-1)`. -/
  | binR : Nat → LedB
  /-- the ternary led on `"if"` (line 169). -/
  | ternaryIf : LedB
  /-- attribute access led on `"."` (line 180). -/
  | dotAttr : LedB
  /-- item access led on `"["` (line 192). -/
  | subscriptLed : LedB
  /-- function call led on `"("` (line 208). -/
  | callLed : LedB
  /-- the `not in` led on `"not"` (line 253). -/
  | notInLed : LedB
  /-- the `is` / `is not` led on `"is"` (line 263). -/
  | isNotLed : LedB
deriving DecidableEq

/-- A symbol-table entry: what one of the dynamically created Python symbol
classes carries — the left binding power class attribute `lbp` and the
optionally attached `nud` / `led` methods (absent means the error-raising
`symbol_base` fallback). -/
structure SymDesc where
  lbp : Nat
  nud : Option NudB
  led : Option LedB
deriving DecidableEq

/-- The symbol registry `symbol_table`, as an association list keyed by
identifier. -/
abbrev SymTable := List (String × SymDesc)

/-- Dictionary lookup `symbol_table[id]` / `symbol_table.get(id)`. -/
def lookupSym : SymTable → String → Option SymDesc
  | [], _ => none
  | (k, s) :: rest, id => if k = id then some s else lookupSym rest id

/-- Replace the entry stored under `id` (mutating a class attribute in the
Python original); identity when `id` is absent. -/
def updateEntry : SymTable → String → (SymDesc → SymDesc) → SymTable
  | [], _, _ => []
  | (k, s) :: rest, id, f =>
    if k = id then (k, f s) :: rest else (k, s) :: updateEntry rest id f

/-- `symbol(id, bp=0)` (lines 46-58): lookup-or-create; on an existing entry
`s.lbp = max(bp, s.lbp)`, on a fresh one a new class with `lbp = bp` and no
behaviors. -/
def symbol (tbl : SymTable) (id : String) (bp : Nat) : SymTable :=
  match lookupSym tbl id with
  | none => tbl ++ [(id, ⟨bp, none, none⟩)]
  | some _ => updateEntry tbl id (fun s => ⟨max bp s.lbp, s.nud, s.led⟩)

/-- Attach a prefix behavior: `symbol_table[id].nud = ...`. -/
def setNud (tbl : SymTable) (id : String) (n : NudB) : SymTable :=
  updateEntry tbl id (fun s => ⟨s.lbp, some n, s.led⟩)

/-- Attach an infix behavior: `symbol_table[id].led = ...`. -/
def setLed (tbl : SymTable) (id : String) (l : LedB) : SymTable :=
  updateEntry tbl id (fun s => ⟨s.lbp, s.nud, some l⟩)

/-- `infix(id, bp)` (line 97): `symbol(id, bp).led = led` with the standard
left-associative led closing over `bp`. -/
def binOpL (tbl : SymTable) (id : String) (bp : Nat) : SymTable :=
  setLed (symbol tbl id bp) id (.binL bp)

/-- `infix_r(id, bp)` (line 113): as `infix` but the led recurses at `bp - 1`. -/
def binOpR (tbl : SymTable) (id : String) (bp : Nat) : SymTable :=
  setLed (symbol tbl id bp) id (.binR bp)

/-- `prefix(id, bp)` (line 105): note the Python body calls `symbol(id)` with
the *default* binding power 0; only the stored closure captures `bp`. -/
def unaryOp (tbl : SymTable) (id : String) (bp : Nat) : SymTable :=
  setNud (symbol tbl id 0) id (.unary bp)

/-- The grammar registration sequence of lines 120-326, in source order.
Overwrites are kept faithfully; in particular the group nud installed on `"("`
at line 158 is replaced by the tuple nud at line 273. -/
def symbolTable : SymTable :=
  let t : SymTable := []
  let t := symbol t "lambda" 20
  let t := symbol t "if" 20
  let t := binOpR t "or" 30
  let t := binOpR t "and" 40
  let t := unaryOp t "not" 50
  let t := binOpL t "in" 60
  let t := binOpL t "<" 60
  let t := binOpL t "<=" 60
  let t := binOpL t ">" 60
  let t := binOpL t ">=" 60
  let t := binOpL t "<>" 60
  let t := binOpL t "!=" 60
  let t := binOpL t "==" 60
  let t := binOpL t "|" 70
  let t := binOpL t "^" 80
  let t := binOpL t "&" 90
  let t := binOpL t "<<" 100
  let t := binOpL t ">>" 100
  let t := binOpL t "+" 110
  let t := binOpL t "-" 110
  let t := binOpL t "*" 120
  let t := binOpL t "/" 120
  let t := binOpL t "//" 120
  let t := binOpL t "%" 120
  let t := unaryOp t "-" 130
  let t := unaryOp t "+" 130
  let t := unaryOp t "~" 130
  let t := binOpR t "**" 140
  let t := symbol t "." 150
  let t := symbol t "[" 150
  let t := symbol t "(" 150
  let t := setNud (symbol t "(literal)" 0) "(literal)" .selfNud
  let t := setNud (symbol t "(name)" 0) "(name)" .selfNud
  let t := symbol t "(end)" 0
  let t := setNud (symbol t "(" 0) "(" .group
  let t := symbol t ")" 0
  let t := setLed (symbol t "if" 0) "if" .ternaryIf
  let t := symbol t "else" 0
  let t := setLed (symbol t "." 0) "." .dotAttr
  let t := setLed (symbol t "[" 0) "[" .subscriptLed
  let t := symbol t "]" 0
  let t := symbol t "(" 0
  let t := symbol t "," 0
  let t := setLed (symbol t "(" 0) "(" .callLed
  let t := symbol t ":" 0
  let t := setNud (symbol t "lambda" 0) "lambda" .lambdaNud
  let t := setNud (symbol t "None" 0) "None" (.constLit "None")
  let t := setNud (symbol t "True" 0) "True" (.constLit "True")
  let t := setNud (symbol t "False" 0) "False" (.constLit "False")
  let t := setLed (symbol t "not" 60) "not" .notInLed
  let t := setLed (symbol t "is" 60) "is" .isNotLed
  let t := setNud (symbol t "(" 0) "(" .tupleNud
  let t := symbol t "]" 0
  let t := setNud (symbol t "[" 0) "[" .listNud
  let t := symbol t "\x7d" 0
  let t := symbol t ":" 0
  let t := setNud (symbol t "\x7b" 0) "\x7b" .dictNud
  t

/-- A live symbol instance before any children are attached: which registry
entry its class is (`descId`) plus the per-occurrence literal value (set for
number/string/name atoms, `None` otherwise). -/
structure Inst where
  descId : String
  value : Option String
deriving DecidableEq

mutual
/-- One of the child fields `first` / `second` / `third` of a node: `None`, a
single child node, or an ordered Python list of nodes (call arguments,
collection elements, lambda parameters). -/
inductive Slot where
  | nil : Slot
  | node : Ast → Slot
  | list : List Ast → Slot

/-- A fully built AST node: the (possibly rewritten) instance `id`, the literal
`value`, and the three child slots. -/
inductive Ast where
  | mk : String → Option String → Slot → Slot → Slot → Ast
end

/-- A childless instance viewed as a leaf node (`return self` for atoms, a
name token stored directly as a child). -/
def instTree (i : Inst) : Ast :=
  .mk i.descId i.value .nil .nil .nil

/-- Parse-time failures.  The Python program signals all of them by raising;
the constructors record which `raise` fires (messages in comments). -/
inductive Err where
  /-- `symbol_base.nud`: `SyntaxError("Syntax error (%r)." % self.id)`. -/
  | missingNud : String → Err
  /-- `symbol_base.led`: `SyntaxError("Unknown operator (%r)." % self.id)`. -/
  | missingLed : String → Err
  /-- `tokenize` (line 94): `SyntaxError("Unknown operator (%r)" % id)` — note
      it names the raw token *kind*, e.g. `"(operator)"`. -/
  | unknownOperator : String → Err
  /-- `advance` (line 163): `SyntaxError("Expected %r" % id)`. -/
  | expected : String → Err
  /-- dot led (line 183): `SyntaxError("Expected an attribute name.")`. -/
  | expectedAttributeName : Err
  /-- `argument_list` (line 234): `SyntaxError("Expected an argument name.")`. -/
  | expectedArgumentName : Err
  /-- `not` led (line 256): `SyntaxError("Invalid syntax")`. -/
  | invalidSyntax : Err
  /-- pulling the exhausted token generator: Python `StopIteration`. -/
  | stopIteration : Err
  /-- the explicit-fuel recursion ran out (never happens with fuel at least
      linear in the stream length; see the termination theorem). -/
  | outOfFuel : Err
deriving DecidableEq

/-- The token adapter, one step of the `tokenize` generator body
(lines 80-95): literal tokens become `(literal)` instances with a value;
other token texts are looked up in the registry (so names colliding with
keywords bind to the keyword's class); unknown names fall back to the generic
`(name)` class; any other unregistered text raises. -/
def adapt (r : Raw) : Except Err Inst :=
  if r.id = "(literal)" then .ok ⟨"(literal)", some r.value⟩
  else
    match lookupSym symbolTable r.value with
    | some _ => .ok ⟨r.value, none⟩
    | none =>
      if r.id = "(name)" then .ok ⟨"(name)", some r.value⟩
      else .error (.unknownOperator r.id)

/-- `next()`: pull one raw token and adapt it, `StopIteration` on an exhausted
stream.  The adapter is lazy exactly as the Python generator: a raw token is
examined only when the engine pulls it. -/
def nextTok (rs : List Raw) : Except Err (Inst × List Raw) :=
  match rs with
  | [] => .error .stopIteration
  | r :: rest =>
    match adapt r with
    | .ok i => .ok (i, rest)
    | .error e => .error e

/-- The global mutable parser state: the current token and what the generator
has not yet produced. -/
structure PSt where
  token : Inst
  rest : List Raw

/-- `advance(id=None)` (lines 160-164): optionally check the current token's
id, then move to the next token. -/
def advance (expectedId : Option String) (st : PSt) : Except Err PSt :=
  match expectedId with
  | some id =>
    if st.token.descId = id then
      match nextTok st.rest with
      | .error e => .error e
      | .ok (tok, rest) => .ok ⟨tok, rest⟩
    else .error (.expected id)
  | none =>
    match nextTok st.rest with
    | .error e => .error e
    | .ok (tok, rest) => .ok ⟨tok, rest⟩

/-- The left binding power of the current token: the `lbp` class attribute of
its registry entry (adapter-produced instances always have one; the default 0
is dead code). -/
def lbpOf (i : Inst) : Nat :=
  match lookupSym symbolTable i.descId with
  | some s => s.lbp
  | none => 0

mutual
/-- The engine `expression(rbp)` (lines 4-20): grab the current token, advance,
run its prefix behavior (inlined dispatch over the defunctionalized `NudB`),
then enter the climbing loop.  A token whose class has no `nud` hits the
`symbol_base.nud` raise. -/
def expression : Nat → Nat → PSt → Except Err (Ast × PSt)
  | 0, _, _ => .error .outOfFuel
  | fuel+1, rbp, st =>
    match nextTok st.rest with
    | .error e => .error e
    | .ok (tok, rest) =>
      match lookupSym symbolTable st.token.descId with
      | none => .error (.missingNud st.token.descId)
      | some d =>
        match d.nud with
        | none => .error (.missingNud st.token.descId)
        | some .selfNud =>
          exprLoop fuel rbp (instTree st.token) ⟨tok, rest⟩
        | some (.unary bp) =>
          match expression fuel bp ⟨tok, rest⟩ with
          | .error e => .error e
          | .ok (operand, st1) =>
            exprLoop fuel rbp (.mk st.token.descId st.token.value (.node operand) .nil .nil) st1
        | some .group =>
          match expression fuel 0 ⟨tok, rest⟩ with
          | .error e => .error e
          | .ok (inner, st1) =>
            match advance (some ")") st1 with
            | .error e => .error e
            | .ok st2 => exprLoop fuel rbp inner st2
        | some .lambdaNud =>
          match
            (if tok.descId = ":" then Except.ok ([], (⟨tok, rest⟩ : PSt))
             else argumentList fuel [] ⟨tok, rest⟩) with
          | .error e => .error e
          | .ok (params, st1) =>
            match advance (some ":") st1 with
            | .error e => .error e
            | .ok st2 =>
              match expression fuel 0 st2 with
              | .error e => .error e
              | .ok (body, st3) =>
                exprLoop fuel rbp (.mk st.token.descId st.token.value (.list params) (.node body) .nil) st3
        | some (.constLit cid) =>
          exprLoop fuel rbp (.mk "(literal)" (some cid) .nil .nil .nil) ⟨tok, rest⟩
        | some .tupleNud =>
          match tupleElems fuel [] false ⟨tok, rest⟩ with
          | .error e => .error e
          | .ok (elems, comma, st1) =>
            match advance (some ")") st1 with
            | .error e => .error e
            | .ok st2 =>
              match elems, comma with
              | [], _ => exprLoop fuel rbp (.mk st.token.descId st.token.value (.list []) .nil .nil) st2
              | es, true => exprLoop fuel rbp (.mk st.token.descId st.token.value (.list es) .nil .nil) st2
              | e :: _, false => exprLoop fuel rbp e st2
        | some .listNud =>
          match listElems fuel [] ⟨tok, rest⟩ with
          | .error e => .error e
          | .ok (elems, st1) =>
            match advance (some "]") st1 with
            | .error e => .error e
            | .ok st2 => exprLoop fuel rbp (.mk st.token.descId st.token.value (.list elems) .nil .nil) st2
        | some .dictNud =>
          match dictElems fuel [] ⟨tok, rest⟩ with
          | .error e => .error e
          | .ok (elems, st1) =>
            match advance (some "\x7d") st1 with
            | .error e => .error e
            | .ok st2 =>
              exprLoop fuel rbp (.mk st.token.descId st.token.value (.list elems) .nil .nil) st2

/-- The climbing loop (lines 15-19): while `rbp < token.lbp`, consume the
current token and run its infix behavior (inlined dispatch over `LedB`) on the
left tree.  A token whose binding power lets it into the loop but with no `led` hits the
`symbol_base.led` raise. -/
def exprLoop : Nat → Nat → Ast → PSt → Except Err (Ast × PSt)
  | 0, _, _, _ => .error .outOfFuel
  | fuel+1, rbp, left, st =>
    if rbp < lbpOf st.token then
      match nextTok st.rest with
      | .error e => .error e
      | .ok (tok, rest) =>
        match lookupSym symbolTable st.token.descId with
        | none => .error (.missingLed st.token.descId)
        | some d =>
          match d.led with
          | none => .error (.missingLed st.token.descId)
          | some (.binL bp) =>
            match expression fuel bp ⟨tok, rest⟩ with
            | .error e => .error e
            | .ok (right, st1) =>
              exprLoop fuel rbp (.mk st.token.descId st.token.value (.node left) (.node right) .nil) st1
          | some (.binR bp) =>
            match expression fuel (bp - 1) ⟨tok, rest⟩ with
            | .error e => .error e
            | .ok (right, st1) =>
              exprLoop fuel rbp (.mk st.token.descId st.token.value (.node left) (.node right) .nil) st1
          | some .ternaryIf =>
            match expression fuel 0 ⟨tok, rest⟩ with
            | .error e => .error e
            | .ok (cond, st1) =>
              match advance (some "else") st1 with
              | .error e => .error e
              | .ok st2 =>
                match expression fuel 0 st2 with
                | .error e => .error e
                | .ok (alt, st3) =>
                  exprLoop fuel rbp (.mk st.token.descId st.token.value (.node left) (.node cond) (.node alt)) st3
          | some .dotAttr =>
            if tok.descId = "(name)" then
              match advance none ⟨tok, rest⟩ with
              | .error e => .error e
              | .ok st1 =>
                exprLoop fuel rbp (.mk st.token.descId st.token.value (.node left) (.node (instTree tok)) .nil) st1
            else .error .expectedAttributeName
          | some .subscriptLed =>
            match expression fuel 0 ⟨tok, rest⟩ with
            | .error e => .error e
            | .ok (idx, st1) =>
              match advance (some "]") st1 with
              | .error e => .error e
              | .ok st2 =>
                exprLoop fuel rbp (.mk st.token.descId st.token.value (.node left) (.node idx) .nil) st2
          | some .callLed =>
            match
              (if tok.descId = ")" then Except.ok ([], (⟨tok, rest⟩ : PSt))
               else callArgs fuel [] ⟨tok, rest⟩) with
            | .error e => .error e
            | .ok (args, st1) =>
              match advance (some ")") st1 with
              | .error e => .error e
              | .ok st2 =>
                exprLoop fuel rbp (.mk st.token.descId st.token.value (.node left) (.list args) .nil) st2
          | some .notInLed =>
            if tok.descId = "in" then
              match advance none ⟨tok, rest⟩ with
              | .error e => .error e
              | .ok st1 =>
                match expression fuel 60 st1 with
                | .error e => .error e
                | .ok (right, st2) =>
                  exprLoop fuel rbp (.mk "not in" st.token.value (.node left) (.node right) .nil) st2
            else .error .invalidSyntax
          | some .isNotLed =>
            match
              (if tok.descId = "not" then
                 match advance none ⟨tok, rest⟩ with
                 | .error e => .error e
                 | .ok st1 => Except.ok ("is not", st1)
               else Except.ok ("is", (⟨tok, rest⟩ : PSt))) with
            | .error e => .error e
            | .ok (newId, st1) =>
              match expression fuel 60 st1 with
              | .error e => .error e
              | .ok (right, st2) =>
                exprLoop fuel rbp (.mk newId st.token.value (.node left) (.node right) .nil) st2
    else .ok (left, st)

/-- The element loop of the tuple nud (lines 276-285): stop on `")"`, parse an
element, continue after a comma (recording that one was seen). -/
def tupleElems : Nat → List Ast → Bool → PSt → Except Err (List Ast × Bool × PSt)
  | 0, _, _, _ => .error .outOfFuel
  | fuel+1, acc, comma, st =>
    if st.token.descId = ")" then .ok (acc, comma, st)
    else
      match expression fuel 0 st with
      | .error e => .error e
      | .ok (e, st1) =>
        if st1.token.descId = "," then
          match advance (some ",") st1 with
          | .error e => .error e
          | .ok st2 => tupleElems fuel (acc ++ [e]) true st2
        else .ok (acc ++ [e], comma, st1)

/-- The element loop of the list nud (lines 298-305). -/
def listElems : Nat → List Ast → PSt → Except Err (List Ast × PSt)
  | 0, _, _ => .error .outOfFuel
  | fuel+1, acc, st =>
    if st.token.descId = "]" then .ok (acc, st)
    else
      match expression fuel 0 st with
      | .error e => .error e
      | .ok (e, st1) =>
        if st1.token.descId = "," then
          match advance (some ",") st1 with
          | .error e => .error e
          | .ok st2 => listElems fuel (acc ++ [e]) st2
        else .ok (acc ++ [e], st1)

/-- The key/value loop of the dict nud (lines 316-324): key, `advance(":")`,
value, continue after a comma. -/
def dictElems : Nat → List Ast → PSt → Except Err (List Ast × PSt)
  | 0, _, _ => .error .outOfFuel
  | fuel+1, acc, st =>
    if st.token.descId = "\x7d" then .ok (acc, st)
    else
      match expression fuel 0 st with
      | .error e => .error e
      | .ok (k, st1) =>
        match advance (some ":") st1 with
        | .error e => .error e
        | .ok st2 =>
          match expression fuel 0 st2 with
          | .error e => .error e
          | .ok (v, st3) =>
            if st3.token.descId = "," then
              match advance (some ",") st3 with
              | .error e => .error e
              | .ok st4 => dictElems fuel (acc ++ [k, v]) st4
            else .ok (acc ++ [k, v], st3)

/-- The argument loop of the call led (lines 213-217): no closing-paren check
at the top of the loop (the caller skips the loop entirely on an immediate
`")"`). -/
def callArgs : Nat → List Ast → PSt → Except Err (List Ast × PSt)
  | 0, _, _ => .error .outOfFuel
  | fuel+1, acc, st =>
    match expression fuel 0 st with
    | .error e => .error e
    | .ok (e, st1) =>
      if st1.token.descId = "," then
        match advance (some ",") st1 with
        | .error e => .error e
        | .ok st2 => callArgs fuel (acc ++ [e]) st2
      else .ok (acc ++ [e], st1)

/-- `argument_list(list)` (lines 231-239): one or more comma-separated name
tokens for a lambda's parameters. -/
def argumentList : Nat → List Ast → PSt → Except Err (List Ast × PSt)
  | 0, _, _ => .error .outOfFuel
  | fuel+1, acc, st =>
    if st.token.descId = "(name)" then
      match advance none st with
      | .error e => .error e
      | .ok st1 =>
        if st1.token.descId = "," then
          match advance (some ",") st1 with
          | .error e => .error e
          | .ok st2 => argumentList fuel (acc ++ [instTree st.token]) st2
        else .ok (acc ++ [instTree st.token], st1)
    else .error .expectedArgumentName
end

/-- `parse(program)` (lines 328-332): prime the current token, run
`expression(0)`, and return its tree — the final state (whatever the engine
did not consume) is discarded without any check. -/
def parse (raws : List Raw) (fuel : Nat) : Except Err Ast :=
  match nextTok raws with
  | .error e => .error e
  | .ok (tok, rest) =>
    match expression fuel 0 ⟨tok, rest⟩ with
    | .error e => .error e
    | .ok (t, _) => .ok t

/-- `parse` supplied with fuel linear in the stream length, which the
termination theorem shows is never exhausted. -/
def parseAll (raws : List Raw) : Except Err Ast :=
  parse raws (2 * raws.length + 2)

/-- A number/string token as mapped by `tokenize_python`. -/
def litT (v : String) : Raw := ⟨"(literal)", v⟩

/-- An operator/punctuation token as mapped by `tokenize_python`. -/
def opT (v : String) : Raw := ⟨"(operator)", v⟩

/-- A name token as mapped by `tokenize_python` (keywords such as `if` arrive
this way). -/
def nameT (v : String) : Raw := ⟨"(name)", v⟩

/-- The end marker `("(end)", "(end)")` emitted once by `tokenize_python`. -/
def endT : Raw := ⟨"(end)", "(end)"⟩

/-- What `tokenize_python` hands the adapter: the lexed tokens followed by
exactly one end marker. -/
def pyTokens (ts : List Raw) : List Raw := ts ++ [endT]

/-- A literal leaf, `(literal v)`. -/
def litA (v : String) : Ast := .mk "(literal)" (some v) .nil .nil .nil

/-- A standard two-child operator node. -/
def binA (id : String) (l r : Ast) : Ast := .mk id none (.node l) (.node r) .nil

/-- A unary prefix node as built by the `prefix` nud (`second = None`). -/
def unA (id : String) (operand : Ast) : Ast := .mk id none (.node operand) .nil .nil


/-- Boolean check over a registry entry, used to compare the unary operand
threshold with the registered binary binding powers: a left-associative led
must have binding power at most `cap`; a right-associative led must as well,
except on the identifier `"**"`. -/
def ledWithin (cap : Nat) (e : String × SymDesc) : Bool :=
  match e.2.led with
  | some (.binL bp) => decide (bp ≤ cap)
  | some (.binR bp) => decide (bp ≤ cap) || decide (e.1 = "**")
  | _ => true

theorem nextTok_len {rs : List Raw} {i : Inst} {rest : List Raw}
    (h : nextTok rs = .ok (i, rest)) : rs.length = rest.length + 1 := by
  unfold nextTok at h
  split at h
  · cases h
  · split at h
    · cases h; simp
    · cases h

theorem nextTok_no_fuel {rs : List Raw} (h : nextTok rs = .error .outOfFuel) : False := by
  unfold nextTok at h
  split at h
  · cases h
  · split at h
    · cases h
    · rename_i e hadapt
      cases h
      unfold adapt at hadapt
      split at hadapt
      · cases hadapt
      · split at hadapt
        · cases hadapt
        · split at hadapt
          · cases hadapt
          · cases hadapt

theorem advance_len {o : Option String} {st st' : PSt}
    (h : advance o st = .ok st') : st.rest.length = st'.rest.length + 1 := by
  unfold advance at h
  split at h
  · split at h
    · split at h
      · cases h
      · rename_i tok rest hn
        cases h
        exact nextTok_len hn
    · cases h
  · split at h
    · cases h
    · rename_i tok rest hn
      cases h
      exact nextTok_len hn

theorem advance_no_fuel {o : Option String} {st : PSt}
    (h : advance o st = .error .outOfFuel) : False := by
  unfold advance at h
  split at h
  · split at h
    · split at h
      · rename_i e hn
        cases h
        exact nextTok_no_fuel hn
      · cases h
    · cases h
  · split at h
    · rename_i e hn
      cases h
      exact nextTok_no_fuel hn
    · cases h

/-- Joint monotonicity and fuel-sufficiency facts for the mutual engine
functions, by induction on fuel: every successful engine step only moves the
token cursor forward (and `expression` consumes at least one raw token), and
fuel linear in the remaining stream length is never exhausted. -/
theorem engineFacts : ∀ fuel : Nat,
    (∀ rbp st r st', expression fuel rbp st = .ok (r, st') →
      st'.rest.length < st.rest.length) ∧
    (∀ rbp st, 2 * st.rest.length + 1 ≤ fuel →
      expression fuel rbp st ≠ .error .outOfFuel) ∧
    (∀ rbp left st r st', exprLoop fuel rbp left st = .ok (r, st') →
      st'.rest.length ≤ st.rest.length) ∧
    (∀ rbp left st, 2 * st.rest.length + 1 ≤ fuel →
      exprLoop fuel rbp left st ≠ .error .outOfFuel) ∧
    (∀ acc comma st r c' st', tupleElems fuel acc comma st = .ok (r, c', st') →
      st'.rest.length ≤ st.rest.length) ∧
    (∀ acc comma st, 2 * st.rest.length + 2 ≤ fuel →
      tupleElems fuel acc comma st ≠ .error .outOfFuel) ∧
    (∀ acc st r st', listElems fuel acc st = .ok (r, st') →
      st'.rest.length ≤ st.rest.length) ∧
    (∀ acc st, 2 * st.rest.length + 2 ≤ fuel →
      listElems fuel acc st ≠ .error .outOfFuel) ∧
    (∀ acc st r st', dictElems fuel acc st = .ok (r, st') →
      st'.rest.length ≤ st.rest.length) ∧
    (∀ acc st, 2 * st.rest.length + 2 ≤ fuel →
      dictElems fuel acc st ≠ .error .outOfFuel) ∧
    (∀ acc st r st', callArgs fuel acc st = .ok (r, st') →
      st'.rest.length ≤ st.rest.length) ∧
    (∀ acc st, 2 * st.rest.length + 2 ≤ fuel →
      callArgs fuel acc st ≠ .error .outOfFuel) ∧
    (∀ acc st r st', argumentList fuel acc st = .ok (r, st') →
      st'.rest.length ≤ st.rest.length) ∧
    (∀ acc st, 2 * st.rest.length + 2 ≤ fuel →
      argumentList fuel acc st ≠ .error .outOfFuel) := by
  intro fuel
  induction fuel with
  | zero =>
    refine ⟨?_, ?_, ?_, ?_, ?_, ?_, ?_, ?_, ?_, ?_, ?_, ?_, ?_, ?_⟩
    · intro rbp st r st' h; unfold expression at h; cases h
    · intro rbp st hle; exact absurd hle (by omega)
    · intro rbp left st r st' h; unfold exprLoop at h; cases h
    · intro rbp left st hle; exact absurd hle (by omega)
    · intro acc comma st r c' st' h; unfold tupleElems at h; cases h
    · intro acc comma st hle; exact absurd hle (by omega)
    · intro acc st r st' h; unfold listElems at h; cases h
    · intro acc st hle; exact absurd hle (by omega)
    · intro acc st r st' h; unfold dictElems at h; cases h
    · intro acc st hle; exact absurd hle (by omega)
    · intro acc st r st' h; unfold callArgs at h; cases h
    · intro acc st hle; exact absurd hle (by omega)
    · intro acc st r st' h; unfold argumentList at h; cases h
    · intro acc st hle; exact absurd hle (by omega)
  | succ fuel ih =>
    obtain ⟨ihEm, ihEf, ihLm, ihLf, ihTm, ihTf, ihSm, ihSf, ihDm, ihDf, ihCm,
      ihCf, ihAm, ihAf⟩ := ih
    refine ⟨?_, ?_, ?_, ?_, ?_, ?_, ?_, ?_, ?_, ?_, ?_, ?_, ?_, ?_⟩
    · -- expression mono
      intro rbp st r st' h
      unfold expression at h
      split at h
      · cases h
      · rename_i tok rest hn
        have hlen := nextTok_len hn
        split at h
        · cases h
        · rename_i d hd
          split at h
          · cases h
          · -- selfNud
            have hL := ihLm _ _ _ _ _ h
            simp only at hL
            omega
          · -- unary
            split at h
            · cases h
            · rename_i operand st1 hexp
              have hE := ihEm _ _ _ _ hexp
              simp only at hE
              have hL := ihLm _ _ _ _ _ h
              omega
          · -- group
            split at h
            · cases h
            · rename_i inner st1 hexp
              have hE := ihEm _ _ _ _ hexp
              simp only at hE
              split at h
              · cases h
              · rename_i st2 hadv
                have hA := advance_len hadv
                have hL := ihLm _ _ _ _ _ h
                omega
          · -- lambdaNud
            split at h
            · cases h
            · rename_i params st1 hif
              have hst1 : st1.rest.length ≤ rest.length := by
                split at hif
                · cases hif; simp
                · have hAL := ihAm _ _ _ _ hif
                  simp only at hAL
                  omega
              split at h
              · cases h
              · rename_i st2 hadv
                have hA := advance_len hadv
                split at h
                · cases h
                · rename_i body st3 hexp
                  have hE := ihEm _ _ _ _ hexp
                  have hL := ihLm _ _ _ _ _ h
                  omega
          · -- constLit
            have hL := ihLm _ _ _ _ _ h
            simp only at hL
            omega
          · -- tupleNud
            split at h
            · cases h
            · rename_i elems comma st1 ht
              have hT := ihTm _ _ _ _ _ _ ht
              simp only at hT
              split at h
              · cases h
              · rename_i st2 hadv
                have hA := advance_len hadv
                split at h
                · have hL := ihLm _ _ _ _ _ h
                  omega
                · have hL := ihLm _ _ _ _ _ h
                  omega
                · have hL := ihLm _ _ _ _ _ h
                  omega
          · -- listNud
            split at h
            · cases h
            · rename_i elems st1 hs
              have hS := ihSm _ _ _ _ hs
              simp only at hS
              split at h
              · cases h
              · rename_i st2 hadv
                have hA := advance_len hadv
                have hL := ihLm _ _ _ _ _ h
                omega
          · -- dictNud
            split at h
            · cases h
            · rename_i elems st1 hds
              have hD := ihDm _ _ _ _ hds
              simp only at hD
              split at h
              · cases h
              · rename_i st2 hadv
                have hA := advance_len hadv
                have hL := ihLm _ _ _ _ _ h
                omega
    · -- expression fuel
      intro rbp st hle h
      unfold expression at h
      split at h
      · rename_i e hn
        cases h
        exact nextTok_no_fuel hn
      · rename_i tok rest hn
        have hlen := nextTok_len hn
        split at h
        · cases h
        · rename_i d hd
          split at h
          · cases h
          · -- selfNud
            exact ihLf _ _ _ (by simp only; omega) h
          · -- unary
            split at h
            · rename_i e hexp
              cases h
              exact ihEf _ _ (by simp only; omega) hexp
            · rename_i operand st1 hexp
              have hE := ihEm _ _ _ _ hexp
              simp only at hE
              exact ihLf _ _ _ (by omega) h
          · -- group
            split at h
            · rename_i e hexp
              cases h
              exact ihEf _ _ (by simp only; omega) hexp
            · rename_i inner st1 hexp
              have hE := ihEm _ _ _ _ hexp
              simp only at hE
              split at h
              · rename_i e hadv
                cases h
                exact advance_no_fuel hadv
              · rename_i st2 hadv
                have hA := advance_len hadv
                exact ihLf _ _ _ (by omega) h
          · -- lambdaNud
            split at h
            · rename_i e hif
              cases h
              split at hif
              · cases hif
              · exact ihAf _ _ (by simp only; omega) hif
            · rename_i params st1 hif
              have hst1 : st1.rest.length ≤ rest.length := by
                split at hif
                · cases hif; simp
                · have hAL := ihAm _ _ _ _ hif
                  simp only at hAL
                  omega
              split at h
              · rename_i e hadv
                cases h
                exact advance_no_fuel hadv
              · rename_i st2 hadv
                have hA := advance_len hadv
                split at h
                · rename_i e hexp
                  cases h
                  exact ihEf _ _ (by omega) hexp
                · rename_i body st3 hexp
                  have hE := ihEm _ _ _ _ hexp
                  exact ihLf _ _ _ (by omega) h
          · -- constLit
            exact ihLf _ _ _ (by simp only; omega) h
          · -- tupleNud
            split at h
            · rename_i e ht
              cases h
              exact ihTf _ _ _ (by simp only; omega) ht
            · rename_i elems comma st1 ht
              have hT := ihTm _ _ _ _ _ _ ht
              simp only at hT
              split at h
              · rename_i e hadv
                cases h
                exact advance_no_fuel hadv
              · rename_i st2 hadv
                have hA := advance_len hadv
                split at h
                · exact ihLf _ _ _ (by omega) h
                · exact ihLf _ _ _ (by omega) h
                · exact ihLf _ _ _ (by omega) h
          · -- listNud
            split at h
            · rename_i e hs
              cases h
              exact ihSf _ _ (by simp only; omega) hs
            · rename_i elems st1 hs
              have hS := ihSm _ _ _ _ hs
              simp only at hS
              split at h
              · rename_i e hadv
                cases h
                exact advance_no_fuel hadv
              · rename_i st2 hadv
                have hA := advance_len hadv
                exact ihLf _ _ _ (by omega) h
          · -- dictNud
            split at h
            · rename_i e hds
              cases h
              exact ihDf _ _ (by simp only; omega) hds
            · rename_i elems st1 hds
              have hD := ihDm _ _ _ _ hds
              simp only at hD
              split at h
              · rename_i e hadv
                cases h
                exact advance_no_fuel hadv
              · rename_i st2 hadv
                have hA := advance_len hadv
                exact ihLf _ _ _ (by omega) h
    · -- exprLoop mono
      intro rbp left st r st' h
      unfold exprLoop at h
      split at h
      · split at h
        · cases h
        · rename_i tok rest hn
          have hlen := nextTok_len hn
          split at h
          · cases h
          · rename_i d hd
            split at h
            · cases h
            · -- binL
              split at h
              · cases h
              · rename_i right st1 hexp
                have hE := ihEm _ _ _ _ hexp
                simp only at hE
                have hL := ihLm _ _ _ _ _ h
                omega
            · -- binR
              split at h
              · cases h
              · rename_i right st1 hexp
                have hE := ihEm _ _ _ _ hexp
                simp only at hE
                have hL := ihLm _ _ _ _ _ h
                omega
            · -- ternaryIf
              split at h
              · cases h
              · rename_i cond st1 hexp
                have hE := ihEm _ _ _ _ hexp
                simp only at hE
                split at h
                · cases h
                · rename_i st2 hadv
                  have hA := advance_len hadv
                  split at h
                  · cases h
                  · rename_i alt st3 hexp2
                    have hE2 := ihEm _ _ _ _ hexp2
                    have hL := ihLm _ _ _ _ _ h
                    omega
            · -- dotAttr
              split at h
              · split at h
                · cases h
                · rename_i st1 hadv
                  have hA := advance_len hadv
                  simp only at hA
                  have hL := ihLm _ _ _ _ _ h
                  omega
              · cases h
            · -- subscriptLed
              split at h
              · cases h
              · rename_i idx st1 hexp
                have hE := ihEm _ _ _ _ hexp
                simp only at hE
                split at h
                · cases h
                · rename_i st2 hadv
                  have hA := advance_len hadv
                  have hL := ihLm _ _ _ _ _ h
                  omega
            · -- callLed
              split at h
              · cases h
              · rename_i args st1 hif
                have hst1 : st1.rest.length ≤ rest.length := by
                  split at hif
                  · cases hif; simp
                  · have hC := ihCm _ _ _ _ hif
                    simp only at hC
                    omega
                split at h
                · cases h
                · rename_i st2 hadv
                  have hA := advance_len hadv
                  have hL := ihLm _ _ _ _ _ h
                  omega
            · -- notInLed
              split at h
              · split at h
                · cases h
                · rename_i st1 hadv
                  have hA := advance_len hadv
                  simp only at hA
                  split at h
                  · cases h
                  · rename_i right st2 hexp
                    have hE := ihEm _ _ _ _ hexp
                    have hL := ihLm _ _ _ _ _ h
                    omega
              · cases h
            · -- isNotLed
              split at h
              · cases h
              · rename_i newId st1 hif
                have hst1 : st1.rest.length ≤ rest.length := by
                  split at hif
                  · split at hif
                    · cases hif
                    · rename_i stA hadv
                      cases hif
                      have hA := advance_len hadv
                      simp only at hA
                      omega
                  · cases hif; simp
                split at h
                · cases h
                · rename_i right st2 hexp
                  have hE := ihEm _ _ _ _ hexp
                  have hL := ihLm _ _ _ _ _ h
                  omega
      · cases h
        omega
    · -- exprLoop fuel
      intro rbp left st hle h
      unfold exprLoop at h
      split at h
      · split at h
        · rename_i e hn
          cases h
          exact nextTok_no_fuel hn
        · rename_i tok rest hn
          have hlen := nextTok_len hn
          split at h
          · cases h
          · rename_i d hd
            split at h
            · cases h
            · -- binL
              split at h
              · rename_i e hexp
                cases h
                exact ihEf _ _ (by simp only; omega) hexp
              · rename_i right st1 hexp
                have hE := ihEm _ _ _ _ hexp
                simp only at hE
                exact ihLf _ _ _ (by omega) h
            · -- binR
              split at h
              · rename_i e hexp
                cases h
                exact ihEf _ _ (by simp only; omega) hexp
              · rename_i right st1 hexp
                have hE := ihEm _ _ _ _ hexp
                simp only at hE
                exact ihLf _ _ _ (by omega) h
            · -- ternaryIf
              split at h
              · rename_i e hexp
                cases h
                exact ihEf _ _ (by simp only; omega) hexp
              · rename_i cond st1 hexp
                have hE := ihEm _ _ _ _ hexp
                simp only at hE
                split at h
                · rename_i e hadv
                  cases h
                  exact advance_no_fuel hadv
                · rename_i st2 hadv
                  have hA := advance_len hadv
                  split at h
                  · rename_i e hexp2
                    cases h
                    exact ihEf _ _ (by omega) hexp2
                  · rename_i alt st3 hexp2
                    have hE2 := ihEm _ _ _ _ hexp2
                    exact ihLf _ _ _ (by omega) h
            · -- dotAttr
              split at h
              · split at h
                · rename_i e hadv
                  cases h
                  exact advance_no_fuel hadv
                · rename_i st1 hadv
                  have hA := advance_len hadv
                  simp only at hA
                  exact ihLf _ _ _ (by omega) h
              · cases h
            · -- subscriptLed
              split at h
              · rename_i e hexp
                cases h
                exact ihEf _ _ (by simp only; omega) hexp
              · rename_i idx st1 hexp
                have hE := ihEm _ _ _ _ hexp
                simp only at hE
                split at h
                · rename_i e hadv
                  cases h
                  exact advance_no_fuel hadv
                · rename_i st2 hadv
                  have hA := advance_len hadv
                  exact ihLf _ _ _ (by omega) h
            · -- callLed
              split at h
              · rename_i e hif
                cases h
                split at hif
                · cases hif
                · exact ihCf _ _ (by simp only; omega) hif
              · rename_i args st1 hif
                have hst1 : st1.rest.length ≤ rest.length := by
                  split at hif
                  · cases hif; simp
                  · have hC := ihCm _ _ _ _ hif
                    simp only at hC
                    omega
                split at h
                · rename_i e hadv
                  cases h
                  exact advance_no_fuel hadv
                · rename_i st2 hadv
                  have hA := advance_len hadv
                  exact ihLf _ _ _ (by omega) h
            · -- notInLed
              split at h
              · split at h
                · rename_i e hadv
                  cases h
                  exact advance_no_fuel hadv
                · rename_i st1 hadv
                  have hA := advance_len hadv
                  simp only at hA
                  split at h
                  · rename_i e hexp
                    cases h
                    exact ihEf _ _ (by omega) hexp
                  · rename_i right st2 hexp
                    have hE := ihEm _ _ _ _ hexp
                    exact ihLf _ _ _ (by omega) h
              · cases h
            · -- isNotLed
              split at h
              · rename_i e hif
                cases h
                split at hif
                · split at hif
                  · rename_i e2 hadv
                    cases hif
                    exact advance_no_fuel hadv
                  · cases hif
                · cases hif
              · rename_i newId st1 hif
                have hst1 : st1.rest.length ≤ rest.length := by
                  split at hif
                  · split at hif
                    · cases hif
                    · rename_i stA hadv
                      cases hif
                      have hA := advance_len hadv
                      simp only at hA
                      omega
                  · cases hif; simp
                split at h
                · rename_i e hexp
                  cases h
                  exact ihEf _ _ (by omega) hexp
                · rename_i right st2 hexp
                  have hE := ihEm _ _ _ _ hexp
                  exact ihLf _ _ _ (by omega) h
      · cases h
    · -- tupleElems mono
      intro acc comma st r c' st' h
      unfold tupleElems at h
      split at h
      · cases h
        omega
      · split at h
        · cases h
        · rename_i e st1 hexp
          have hE := ihEm _ _ _ _ hexp
          split at h
          · split at h
            · cases h
            · rename_i st2 hadv
              have hA := advance_len hadv
              have hR := ihTm _ _ _ _ _ _ h
              omega
          · cases h
            omega
    · -- tupleElems fuel
      intro acc comma st hle h
      unfold tupleElems at h
      split at h
      · cases h
      · split at h
        · rename_i e hexp
          cases h
          exact ihEf _ _ (by omega) hexp
        · rename_i e st1 hexp
          have hE := ihEm _ _ _ _ hexp
          split at h
          · split at h
            · rename_i e2 hadv
              cases h
              exact advance_no_fuel hadv
            · rename_i st2 hadv
              have hA := advance_len hadv
              exact ihTf _ _ _ (by omega) h
          · cases h
    · -- listElems mono
      intro acc st r st' h
      unfold listElems at h
      split at h
      · cases h
        omega
      · split at h
        · cases h
        · rename_i e st1 hexp
          have hE := ihEm _ _ _ _ hexp
          split at h
          · split at h
            · cases h
            · rename_i st2 hadv
              have hA := advance_len hadv
              have hR := ihSm _ _ _ _ h
              omega
          · cases h
            omega
    · -- listElems fuel
      intro acc st hle h
      unfold listElems at h
      split at h
      · cases h
      · split at h
        · rename_i e hexp
          cases h
          exact ihEf _ _ (by omega) hexp
        · rename_i e st1 hexp
          have hE := ihEm _ _ _ _ hexp
          split at h
          · split at h
            · rename_i e2 hadv
              cases h
              exact advance_no_fuel hadv
            · rename_i st2 hadv
              have hA := advance_len hadv
              exact ihSf _ _ (by omega) h
          · cases h
    · -- dictElems mono
      intro acc st r st' h
      unfold dictElems at h
      split at h
      · cases h
        omega
      · split at h
        · cases h
        · rename_i k st1 hexp
          have hE := ihEm _ _ _ _ hexp
          split at h
          · cases h
          · rename_i st2 hadv
            have hA := advance_len hadv
            split at h
            · cases h
            · rename_i v st3 hexp2
              have hE2 := ihEm _ _ _ _ hexp2
              split at h
              · split at h
                · cases h
                · rename_i st4 hadv2
                  have hA2 := advance_len hadv2
                  have hR := ihDm _ _ _ _ h
                  omega
              · cases h
                omega
    · -- dictElems fuel
      intro acc st hle h
      unfold dictElems at h
      split at h
      · cases h
      · split at h
        · rename_i e hexp
          cases h
          exact ihEf _ _ (by omega) hexp
        · rename_i k st1 hexp
          have hE := ihEm _ _ _ _ hexp
          split at h
          · rename_i e hadv
            cases h
            exact advance_no_fuel hadv
          · rename_i st2 hadv
            have hA := advance_len hadv
            split at h
            · rename_i e hexp2
              cases h
              exact ihEf _ _ (by omega) hexp2
            · rename_i v st3 hexp2
              have hE2 := ihEm _ _ _ _ hexp2
              split at h
              · split at h
                · rename_i e hadv2
                  cases h
                  exact advance_no_fuel hadv2
                · rename_i st4 hadv2
                  have hA2 := advance_len hadv2
                  exact ihDf _ _ (by omega) h
              · cases h
    · -- callArgs mono
      intro acc st r st' h
      unfold callArgs at h
      split at h
      · cases h
      · rename_i e st1 hexp
        have hE := ihEm _ _ _ _ hexp
        split at h
        · split at h
          · cases h
          · rename_i st2 hadv
            have hA := advance_len hadv
            have hR := ihCm _ _ _ _ h
            omega
        · cases h
          omega
    · -- callArgs fuel
      intro acc st hle h
      unfold callArgs at h
      split at h
      · rename_i e hexp
        cases h
        exact ihEf _ _ (by omega) hexp
      · rename_i e st1 hexp
        have hE := ihEm _ _ _ _ hexp
        split at h
        · split at h
          · rename_i e2 hadv
            cases h
            exact advance_no_fuel hadv
          · rename_i st2 hadv
            have hA := advance_len hadv
            exact ihCf _ _ (by omega) h
        · cases h
    · -- argumentList mono
      intro acc st r st' h
      unfold argumentList at h
      split at h
      · split at h
        · cases h
        · rename_i st1 hadv
          have hA := advance_len hadv
          split at h
          · split at h
            · cases h
            · rename_i st2 hadv2
              have hA2 := advance_len hadv2
              have hR := ihAm _ _ _ _ h
              omega
          · cases h
            omega
      · cases h
    · -- argumentList fuel
      intro acc st hle h
      unfold argumentList at h
      split at h
      · split at h
        · rename_i e hadv
          cases h
          exact advance_no_fuel hadv
        · rename_i st1 hadv
          have hA := advance_len hadv
          split at h
          · split at h
            · rename_i e hadv2
              cases h
              exact advance_no_fuel hadv2
            · rename_i st2 hadv2
              have hA2 := advance_len hadv2
              exact ihAf _ _ (by omega) h
          · cases h
      · cases h

theorem lookup_update (tbl : SymTable) (id : String) (f : SymDesc → SymDesc) :
    lookupSym (updateEntry tbl id f) id = (lookupSym tbl id).map f := by
  induction tbl with
  | nil => rfl
  | cons p rest ih =>
    obtain ⟨k, s⟩ := p
    by_cases hk : k = id
    · simp [updateEntry, lookupSym, hk]
    · simp [updateEntry, lookupSym, hk, ih]

theorem lookup_append_absent (tbl : SymTable) (id : String) (d : SymDesc)
    (h : lookupSym tbl id = none) : lookupSym (tbl ++ [(id, d)]) id = some d := by
  induction tbl with
  | nil => simp [lookupSym]
  | cons p rest ih =>
    obtain ⟨k, s⟩ := p
    by_cases hk : k = id
    · simp [lookupSym, hk] at h
    · simp only [List.cons_append]
      simp [lookupSym, hk] at h ⊢
      exact ih h

theorem lookup_symbol_found {tbl : SymTable} {id : String} {s : SymDesc}
    (h : lookupSym tbl id = some s) (bp : Nat) :
    lookupSym (symbol tbl id bp) id = some ⟨max bp s.lbp, s.nud, s.led⟩ := by
  simp [symbol, h, lookup_update]

theorem lookup_symbol_absent {tbl : SymTable} {id : String}
    (h : lookupSym tbl id = none) (bp : Nat) :
    lookupSym (symbol tbl id bp) id = some ⟨bp, none, none⟩ := by
  simp [symbol, h, lookup_append_absent tbl id _ h]

theorem lookup_setNud {tbl : SymTable} {id : String} {s : SymDesc}
    (h : lookupSym tbl id = some s) (n : NudB) :
    lookupSym (setNud tbl id n) id = some ⟨s.lbp, some n, s.led⟩ := by
  simp [setNud, lookup_update, h]

theorem lookup_setLed {tbl : SymTable} {id : String} {s : SymDesc}
    (h : lookupSym tbl id = some s) (l : LedB) :
    lookupSym (setLed tbl id l) id = some ⟨s.lbp, s.nud, some l⟩ := by
  simp [setLed, lookup_update, h]

/-- C1 — counterexample.  The claim says a unary prefix operator's operand is
parsed at a threshold exceeding every binary binding power, so that `**`
(binding power 140) is never consumed into the unary operand.  On the code the
threshold is 130 < 140: parsing `- 2 ** 2` yields `(- (** 2 2))` — the `**`
node *is* the unary operand — and not the tree the claim would force. -/
theorem c1_counterexample :
    parseAll (pyTokens [opT "-", litT "2", opT "**", litT "2"]) =
      .ok (unA "-" (binA "**" (litA "2") (litA "2"))) ∧
    parseAll (pyTokens [opT "-", litT "2", opT "**", litT "2"]) ≠
      .ok (binA "**" (unA "-" (litA "2")) (litA "2")) := by
  refine ⟨rfl, ?_⟩
  intro h
  have e1 : parseAll (pyTokens [opT "-", litT "2", opT "**", litT "2"]) =
      .ok (unA "-" (binA "**" (litA "2") (litA "2"))) := rfl
  rw [e1] at h
  simp [unA, binA, litA] at h

/-- C1 — amended.  The registered prefix operators `-`, `+`, `~` parse their
operand at the fixed threshold 130, which exceeds every *left-associative*
binary binding power (all at most 120) and the right-associative `or`/`and`,
but not `**` (140): a following binary operator other than `**` is not
consumed into the unary operand (`- 2 * 3` parses as `(* (- 2) 3)`), while
`**` is (`- 2 ** 2` parses as `(- (** 2 2))`). -/
theorem c1_amended :
    lookupSym symbolTable "-" = some ⟨110, some (.unary 130), some (.binL 110)⟩ ∧
    lookupSym symbolTable "+" = some ⟨110, some (.unary 130), some (.binL 110)⟩ ∧
    lookupSym symbolTable "~" = some ⟨0, some (.unary 130), none⟩ ∧
    lookupSym symbolTable "**" = some ⟨140, none, some (.binR 140)⟩ ∧
    symbolTable.all (ledWithin 130) = true ∧
    parseAll (pyTokens [opT "-", litT "2", opT "*", litT "3"]) =
      .ok (binA "*" (unA "-" (litA "2")) (litA "3")) ∧
    parseAll (pyTokens [opT "-", litT "2", opT "**", litT "2"]) =
      .ok (unA "-" (binA "**" (litA "2") (litA "2"))) :=
  ⟨rfl, rfl, rfl, rfl, rfl, rfl, rfl⟩

/-- C2: for any atoms `a`, `b`, `c`, the right-associative `**` (led recursing
at `bindingPower - 1`) makes `a ** b ** c` parse as the right-nested tree
`(** a (** b c))` and never the left-nested `(** (** a b) c)`. -/
theorem c2_pow_right_assoc (a b c : String) :
    parseAll (pyTokens [litT a, opT "**", litT b, opT "**", litT c]) =
      .ok (binA "**" (litA a) (binA "**" (litA b) (litA c))) ∧
    parseAll (pyTokens [litT a, opT "**", litT b, opT "**", litT c]) ≠
      .ok (binA "**" (binA "**" (litA a) (litA b)) (litA c)) := by
  refine ⟨rfl, ?_⟩
  intro h
  have e1 : parseAll (pyTokens [litT a, opT "**", litT b, opT "**", litT c]) =
      .ok (binA "**" (litA a) (binA "**" (litA b) (litA c))) := rfl
  rw [e1] at h
  simp [binA, litA, litT] at h

/-- C3: with the registered binding powers (`*` at 120 binds tighter than `+`
at 110), `1 + 2 * 3` parses as `(+ 1 (* 2 3))` and never `(* (+ 1 2) 3)`. -/
theorem c3_precedence :
    parseAll (pyTokens [litT "1", opT "+", litT "2", opT "*", litT "3"]) =
      .ok (binA "+" (litA "1") (binA "*" (litA "2") (litA "3"))) ∧
    parseAll (pyTokens [litT "1", opT "+", litT "2", opT "*", litT "3"]) ≠
      .ok (binA "*" (binA "+" (litA "1") (litA "2")) (litA "3")) := by
  refine ⟨rfl, ?_⟩
  intro h
  have e1 : parseAll (pyTokens [litT "1", opT "+", litT "2", opT "*", litT "3"]) =
      .ok (binA "+" (litA "1") (binA "*" (litA "2") (litA "3"))) := rfl
  rw [e1] at h
  simp [binA, litA] at h

/-- C4: registering an id again keeps the maximum of the binding powers (a
later weaker registration never lowers the stored one), while a behavior
supplied again replaces the earlier one (shown both for the raw primitives
`symbol` / `setNud` / `setLed` and for a double `infix` registration). -/
theorem c4_registry_merge :
    (∀ (tbl : SymTable) (id : String) (bp : Nat) (s : SymDesc),
      lookupSym tbl id = some s →
      lookupSym (symbol tbl id bp) id = some ⟨max bp s.lbp, s.nud, s.led⟩) ∧
    (∀ (tbl : SymTable) (id : String) (b1 b2 : Nat),
      lookupSym tbl id = none →
      lookupSym (symbol (symbol tbl id b1) id b2) id = some ⟨max b2 b1, none, none⟩) ∧
    (∀ (tbl : SymTable) (id : String) (b1 b2 : Nat),
      lookupSym tbl id = none →
      lookupSym (binOpL (binOpL tbl id b1) id b2) id =
        some ⟨max b2 b1, none, some (.binL b2)⟩) ∧
    (∀ (tbl : SymTable) (id : String) (s : SymDesc) (n1 n2 : NudB),
      lookupSym tbl id = some s →
      lookupSym (setNud (setNud tbl id n1) id n2) id = some ⟨s.lbp, some n2, s.led⟩) ∧
    (∀ (tbl : SymTable) (id : String) (s : SymDesc) (l1 l2 : LedB),
      lookupSym tbl id = some s →
      lookupSym (setLed (setLed tbl id l1) id l2) id = some ⟨s.lbp, s.nud, some l2⟩) := by
  refine ⟨?_, ?_, ?_, ?_, ?_⟩
  · intro tbl id bp s h
    exact lookup_symbol_found h bp
  · intro tbl id b1 b2 h
    have h1 := lookup_symbol_absent h b1
    exact lookup_symbol_found h1 b2
  · intro tbl id b1 b2 h
    unfold binOpL
    have h1 := lookup_symbol_absent h b1
    have h2 := lookup_setLed h1 (.binL b1)
    have h3 := lookup_symbol_found h2 b2
    exact lookup_setLed h3 (.binL b2)
  · intro tbl id s n1 n2 h
    have h1 := lookup_setNud h n1
    exact lookup_setNud h1 n2
  · intro tbl id s l1 l2 h
    have h1 := lookup_setLed h l1
    exact lookup_setLed h1 l2

theorem c4_registry_merge_witness :
    lookupSym (symbol [("x", ⟨7, none, none⟩)] "x" 3) "x" = some ⟨max 3 7, none, none⟩ ∧
    lookupSym (symbol (symbol ([] : SymTable) "x" 5) "x" 3) "x" = some ⟨max 3 5, none, none⟩ ∧
    lookupSym (binOpL (binOpL ([] : SymTable) "x" 5) "x" 3) "x" =
      some ⟨max 3 5, none, some (.binL 3)⟩ ∧
    lookupSym (setNud (setNud [("x", ⟨7, none, none⟩)] "x" .group) "x" .selfNud) "x" =
      some ⟨7, some .selfNud, none⟩ ∧
    lookupSym (setLed (setLed [("x", ⟨7, none, none⟩)] "x" .dotAttr) "x" .callLed) "x" =
      some ⟨7, none, some .callLed⟩ :=
  ⟨c4_registry_merge.1 [("x", ⟨7, none, none⟩)] "x" 3 ⟨7, none, none⟩ rfl,
   c4_registry_merge.2.1 [] "x" 5 3 rfl,
   c4_registry_merge.2.2.1 [] "x" 5 3 rfl,
   c4_registry_merge.2.2.2.1 [("x", ⟨7, none, none⟩)] "x" ⟨7, none, none⟩ .group .selfNud rfl,
   c4_registry_merge.2.2.2.2 [("x", ⟨7, none, none⟩)] "x" ⟨7, none, none⟩ .dotAttr .callLed rfl⟩

/-- C5: on any finite token stream, `expression(rbp)` terminates — with fuel
linear in the remaining stream length the engine never exhausts it (every
iteration and recursion consumes tokens), and the climbing loop stops the
moment the current token's binding power is 0 (the end marker's), since
`rbp < 0` never holds. -/
theorem c5_terminates :
    (∀ fuel rbp st, 2 * st.rest.length + 1 ≤ fuel →
      expression fuel rbp st ≠ .error .outOfFuel) ∧
    (∀ fuel rbp left st, lbpOf st.token = 0 →
      exprLoop (fuel + 1) rbp left st = .ok (left, st)) := by
  constructor
  · intro fuel rbp st h
    exact (engineFacts fuel).2.1 rbp st h
  · intro fuel rbp left st h
    unfold exprLoop
    simp [h]

theorem c5_terminates_witness :
    2 * (PSt.mk ⟨"(literal)", some "1"⟩ [opT "+", litT "2", endT]).rest.length + 1 ≤ 7 ∧
    expression 7 0 ⟨⟨"(literal)", some "1"⟩, [opT "+", litT "2", endT]⟩ ≠
      .error .outOfFuel ∧
    lbpOf ⟨"(end)", none⟩ = 0 ∧
    exprLoop (3 + 1) 0 (litA "1") ⟨⟨"(end)", none⟩, []⟩ =
      .ok (litA "1", ⟨⟨"(end)", none⟩, []⟩) :=
  ⟨by decide, c5_terminates.1 7 0 _ (by decide), rfl,
   c5_terminates.2 3 0 (litA "1") ⟨⟨"(end)", none⟩, []⟩ rfl⟩

/-- C6: a parenthesized single element with no trailing comma degrades to the
element itself — for any literal, `( v )` parses to the literal's own tree,
not to a tuple node — and consequently `(1 + 2) * 3` parses as
`(* (+ 1 2) 3)`, the parentheses overriding precedence. -/
theorem c6_paren_grouping :
    (∀ v : String, parseAll (pyTokens [opT "(", litT v, opT ")"]) = .ok (litA v)) ∧
    (∀ v : String, parseAll (pyTokens [opT "(", litT v, opT ")"]) ≠
      .ok (Ast.mk "(" none (.list [litA v]) .nil .nil)) ∧
    parseAll (pyTokens [opT "(", litT "1", opT "+", litT "2", opT ")", opT "*", litT "3"]) =
      .ok (binA "*" (binA "+" (litA "1") (litA "2")) (litA "3")) := by
  refine ⟨fun v => rfl, ?_, rfl⟩
  intro v h
  have e1 : parseAll (pyTokens [opT "(", litT v, opT ")"]) = .ok (litA v) := rfl
  rw [e1] at h
  simp [litA] at h

/-- C7: `1 if 2 else 3` parses to a single ternary node with id `if`, whose
`first` is the consequence `1` (the already-parsed left operand), `second` the
condition `2`, and `third` the alternative `3`. -/
theorem c7_ternary :
    parseAll (pyTokens [litT "1", nameT "if", litT "2", nameT "else", litT "3"]) =
      .ok (Ast.mk "if" none (.node (litA "1")) (.node (litA "2")) (.node (litA "3"))) := rfl

/-- C8 — counterexample.  The claim says parsing `1 +` raises the
missing-prefix-behavior error for the end marker.  In the code, `expression`
advances *past* the end marker (line 8, `token = next()`) before ever calling
`t.nud()`, so the exhausted token generator raises StopIteration first; the
end marker's missing nud is never reached. -/
theorem c8_counterexample :
    parseAll (pyTokens [litT "1", opT "+"]) = .error .stopIteration ∧
    parseAll (pyTokens [litT "1", opT "+"]) ≠ .error (.missingNud "(end)") := by
  refine ⟨rfl, ?_⟩
  intro h
  have e1 : parseAll (pyTokens [litT "1", opT "+"]) = .error .stopIteration := rfl
  rw [e1] at h
  simp at h

/-- C8 — amended.  Parsing `1 +` aborts with no partial tree, but the failure
is the token stream running dry (StopIteration) when the engine advances past
the end marker taken as the prospective right operand of `+`; the end marker
indeed has no behaviors, but its missing prefix behavior is never consulted. -/
theorem c8_amended :
    parseAll (pyTokens [litT "1", opT "+"]) = .error .stopIteration ∧
    lookupSym symbolTable "(end)" = some ⟨0, none, none⟩ :=
  ⟨rfl, rfl⟩

/-- C9 — counterexample.  The claim says any input containing an unregistered
operator raises an unknown-identifier error before the engine runs.  The
adapter is a lazy generator driven by the engine's pulls: in `1 2 @` the
unregistered `@` sits after the leading expression, is never examined, and the
parse returns the literal `1` with no error at all. -/
theorem c9_counterexample :
    lookupSym symbolTable "@" = none ∧
    parseAll (pyTokens [litT "1", litT "2", opT "@"]) = .ok (litA "1") ∧
    ∀ e : Err, parseAll (pyTokens [litT "1", litT "2", opT "@"]) ≠ .error e := by
  refine ⟨rfl, rfl, ?_⟩
  intro e h
  have e1 : parseAll (pyTokens [litT "1", litT "2", opT "@"]) = .ok (litA "1") := rfl
  rw [e1] at h
  simp at h

/-- C9 — amended.  When the engine's pull actually reaches an unregistered
operator token (as in `1 @ 2`), the token adapter raises the unknown-operator
error, naming the raw token's *kind*, and no behavior of the engine is
consulted for it; but tokenization is lazy and interleaved with the engine, so
unregistered tokens beyond the leading expression are never examined
(`1 2 @` parses to the literal `1`). -/
theorem c9_amended :
    lookupSym symbolTable "@" = none ∧
    parseAll (pyTokens [litT "1", opT "@", litT "2"]) =
      .error (.unknownOperator "(operator)") ∧
    parseAll (pyTokens [litT "1", litT "2", opT "@"]) = .ok (litA "1") :=
  ⟨rfl, rfl, rfl⟩

/-- C10: `parse` never checks that the input was consumed — whenever the
leading `expression(0)` succeeds, `parse` returns its tree and discards the
final state (the unconsumed trailing tokens) without any error; in particular
`v w` for two literals parses to the first literal alone. -/
theorem c10_trailing_ignored :
    (∀ (raws : List Raw) (fuel : Nat) (tok : Inst) (rest : List Raw)
        (tree : Ast) (st' : PSt),
      nextTok raws = .ok (tok, rest) →
      expression fuel 0 ⟨tok, rest⟩ = .ok (tree, st') →
      parse raws fuel = .ok tree) ∧
    (∀ v w : String, parseAll (pyTokens [litT v, litT w]) = .ok (litA v)) := by
  constructor
  · intro raws fuel tok rest tree st' h1 h2
    unfold parse
    rw [h1]
    simp [h2]
  · intro v w
    rfl

theorem c10_trailing_ignored_witness :
    parse (pyTokens [litT "1", litT "2"]) 6 = .ok (litA "1") :=
  c10_trailing_ignored.1 (pyTokens [litT "1", litT "2"]) 6 ⟨"(literal)", some "1"⟩
    [litT "2", endT] (litA "1") ⟨⟨"(literal)", some "2"⟩, [endT]⟩ (by rfl) (by rfl)

end Pratt
